import Mathlib

/-!
Verification of the history-extraction and presentation pipeline of the
mkdocs-git-latest-changes-plugin repository.

Python strings are modelled as `List Char`.  Each definition below is a
shallow embedding of the correspondingly named function of the sources
(`helpers.py`, `models.py`, `git_adapter.py`, `presentation.py`, and the
legacy near-duplicate `plugin.py`).  External collaborators (GitPython,
`datetime.fromisoformat`, the filesystem) are modelled as explicit
environment parameters.
-/

/-- Convert a Lean string literal to the `List Char` representation used for
Python strings throughout this development. -/
def pstr (s : String) : List Char := s.data

/-- Python `str.replace(old, new)` for a single-character pattern `old`:
every occurrence of the character `c` is replaced by the string `r`,
left to right. -/
def replaceChar (c : Char) (r : List Char) : List Char → List Char
  | [] => []
  | x :: xs => (if x = c then r else [x]) ++ replaceChar c r xs

/-- Whitespace characters removed by Python `str.strip()` (ASCII range;
`str.strip()` additionally strips other Unicode space characters, which do
not occur in any of the concrete strings considered here). -/
def pyIsSpace (c : Char) : Bool :=
  c = ' ' ∨ c = '\t' ∨ c = '\n' ∨ c = '\r' ∨ c = '\x0b' ∨ c = '\x0c'

/-- Python `str.strip()`: remove leading and trailing whitespace. -/
def pyStrip (s : List Char) : List Char :=
  ((s.dropWhile pyIsSpace).reverse.dropWhile pyIsSpace).reverse

/-- Python `html.escape(s, quote=True)` (used by `sanitize_string` in
`helpers.py:64` and `plugin.py:168`): the stdlib performs the five
single-character replacements in this order: `&` first, then `<`, `>`,
`"` and the apostrophe; the apostrophe is replaced by the hexadecimal
character reference `&#x27;`. -/
def html_escape (s : List Char) : List Char :=
  replaceChar (Char.ofNat 39) (pstr "&#x27;")
    (replaceChar '"' (pstr "&quot;")
      (replaceChar '>' (pstr "&gt;")
        (replaceChar '<' (pstr "&lt;")
          (replaceChar '&' (pstr "&amp;") s))))

/-- `sanitize_string` from `helpers.py:62-71` (identical copy in
`plugin.py:166-175`): strip surrounding whitespace, then HTML-escape. -/
def sanitize_string (s : List Char) : List Char :=
  html_escape (pyStrip s)

/-- Per-character escape table realised by `html.escape`: the five
HTML-special characters map to their escape sequences, every other
character passes through unchanged. -/
def escChar (c : Char) : List Char :=
  if c = '&' then pstr "&amp;"
  else if c = '<' then pstr "&lt;"
  else if c = '>' then pstr "&gt;"
  else if c = '"' then pstr "&quot;"
  else if c = Char.ofNat 39 then pstr "&#x27;"
  else [c]

/-- The escape table that the specification's words describe: each of the
five characters is replaced by its *named* HTML entity; in particular the
apostrophe by `&apos;`.  This definition follows the claim text, not the
source, and is only used for comparison with `sanitize_string`. -/
def namedEscChar (c : Char) : List Char :=
  if c = '&' then pstr "&amp;"
  else if c = '<' then pstr "&lt;"
  else if c = '>' then pstr "&gt;"
  else if c = '"' then pstr "&quot;"
  else if c = Char.ofNat 39 then pstr "&apos;"
  else [c]

/-- Sanitizer as the specification's words describe it: trim, then replace
each special character by its named HTML entity. -/
def claimSanitizeNamed (s : List Char) : List Char :=
  (pyStrip s).flatMap namedEscChar

theorem replaceChar_append (c : Char) (r a b : List Char) :
    replaceChar c r (a ++ b) = replaceChar c r a ++ replaceChar c r b := by
  induction a with
  | nil => rfl
  | cons x xs ih => simp [replaceChar, ih]

theorem html_escape_append (a b : List Char) :
    html_escape (a ++ b) = html_escape a ++ html_escape b := by
  simp [html_escape, replaceChar_append]

theorem html_escape_single (c : Char) : html_escape [c] = escChar c := by
  unfold escChar
  by_cases h1 : c = '&'
  · subst h1; rfl
  · by_cases h2 : c = '<'
    · subst h2; rfl
    · by_cases h3 : c = '>'
      · subst h3; rfl
      · by_cases h4 : c = '"'
        · subst h4; rfl
        · by_cases h5 : c = Char.ofNat 39
          · subst h5; rfl
          · simp only [if_neg h1, if_neg h2, if_neg h3, if_neg h4, if_neg h5]
            simp [html_escape, replaceChar, h1, h2, h3, h4, h5]

/-- The sequential replacements of `html.escape` amount to a single
character-wise substitution: no replacement string is re-processed by a
later replacement because `&` is handled first. -/
theorem html_escape_eq_flatMap (s : List Char) :
    html_escape s = s.flatMap escChar := by
  induction s with
  | nil => rfl
  | cons x xs ih =>
      have h : x :: xs = [x] ++ xs := rfl
      rw [h, html_escape_append, ih, html_escape_single]
      simp

/-- After an ampersand, one of the five escape-sequence tails produced by
`html.escape` must follow for the ampersand to count as escaped. -/
def ampEscapeOk (rest : List Char) : Bool :=
  (pstr "amp;").isPrefixOf rest || (pstr "lt;").isPrefixOf rest ||
  (pstr "gt;").isPrefixOf rest || (pstr "quot;").isPrefixOf rest ||
  (pstr "#x27;").isPrefixOf rest

/-- Every ampersand in the string starts one of the five escape sequences
emitted by `html.escape`; i.e. no unescaped ampersand occurs. -/
def ampOk : List Char → Bool
  | [] => true
  | c :: rest => (if c = '&' then ampEscapeOk rest else true) && ampOk rest

theorem isPrefixOf_append_self (l t : List Char) : l.isPrefixOf (l ++ t) = true := by
  induction l with
  | nil => simp [List.isPrefixOf]
  | cons x xs ih => simp [List.isPrefixOf, ih]

theorem ampOk_cons_ne (c : Char) (rest : List Char) (h : ¬c = '&') :
    ampOk (c :: rest) = ampOk rest := by
  simp [ampOk, h]

theorem ampOk_cons_amp (rest : List Char) :
    ampOk ('&' :: rest) = (ampEscapeOk rest && ampOk rest) := by
  simp [ampOk]

theorem ampOk_escChar (c : Char) (t : List Char) :
    ampOk (escChar c ++ t) = ampOk t := by
  unfold escChar
  by_cases h1 : c = '&'
  · subst h1
    simp only [if_pos rfl]
    show ampOk ('&' :: ('a' :: 'm' :: 'p' :: ';' :: t)) = ampOk t
    have hp : ampEscapeOk ('a' :: 'm' :: 'p' :: ';' :: t) = true := by
      have h := isPrefixOf_append_self (pstr "amp;") t
      unfold ampEscapeOk
      rw [show ((pstr "amp;").isPrefixOf ('a' :: 'm' :: 'p' :: ';' :: t)) = true from h]
      simp
    rw [ampOk_cons_amp, hp, Bool.true_and,
      ampOk_cons_ne 'a' _ (by decide), ampOk_cons_ne 'm' _ (by decide),
      ampOk_cons_ne 'p' _ (by decide), ampOk_cons_ne ';' _ (by decide)]
  · by_cases h2 : c = '<'
    · subst h2
      simp only [if_neg h1, if_pos rfl]
      show ampOk ('&' :: ('l' :: 't' :: ';' :: t)) = ampOk t
      have hp : ampEscapeOk ('l' :: 't' :: ';' :: t) = true := by
        have h := isPrefixOf_append_self (pstr "lt;") t
        unfold ampEscapeOk
        rw [show ((pstr "lt;").isPrefixOf ('l' :: 't' :: ';' :: t)) = true from h]
        simp
      rw [ampOk_cons_amp, hp, Bool.true_and,
        ampOk_cons_ne 'l' _ (by decide), ampOk_cons_ne 't' _ (by decide),
        ampOk_cons_ne ';' _ (by decide)]
    · by_cases h3 : c = '>'
      · subst h3
        simp only [if_neg h1, if_neg h2, if_pos rfl]
        show ampOk ('&' :: ('g' :: 't' :: ';' :: t)) = ampOk t
        have hp : ampEscapeOk ('g' :: 't' :: ';' :: t) = true := by
          have h := isPrefixOf_append_self (pstr "gt;") t
          unfold ampEscapeOk
          rw [show ((pstr "gt;").isPrefixOf ('g' :: 't' :: ';' :: t)) = true from h]
          simp
        rw [ampOk_cons_amp, hp, Bool.true_and,
          ampOk_cons_ne 'g' _ (by decide), ampOk_cons_ne 't' _ (by decide),
          ampOk_cons_ne ';' _ (by decide)]
      · by_cases h4 : c = '"'
        · subst h4
          simp only [if_neg h1, if_neg h2, if_neg h3, if_pos rfl]
          show ampOk ('&' :: ('q' :: 'u' :: 'o' :: 't' :: ';' :: t)) = ampOk t
          have hp : ampEscapeOk ('q' :: 'u' :: 'o' :: 't' :: ';' :: t) = true := by
            have h := isPrefixOf_append_self (pstr "quot;") t
            unfold ampEscapeOk
            rw [show ((pstr "quot;").isPrefixOf ('q' :: 'u' :: 'o' :: 't' :: ';' :: t)) = true from h]
            simp
          rw [ampOk_cons_amp, hp, Bool.true_and,
            ampOk_cons_ne 'q' _ (by decide), ampOk_cons_ne 'u' _ (by decide),
            ampOk_cons_ne 'o' _ (by decide), ampOk_cons_ne 't' _ (by decide),
            ampOk_cons_ne ';' _ (by decide)]
        · by_cases h5 : c = Char.ofNat 39
          · subst h5
            simp only [if_neg h1, if_neg h2, if_neg h3, if_neg h4, if_pos rfl]
            show ampOk ('&' :: ('#' :: 'x' :: '2' :: '7' :: ';' :: t)) = ampOk t
            have hp : ampEscapeOk ('#' :: 'x' :: '2' :: '7' :: ';' :: t) = true := by
              have h := isPrefixOf_append_self (pstr "#x27;") t
              unfold ampEscapeOk
              rw [show ((pstr "#x27;").isPrefixOf ('#' :: 'x' :: '2' :: '7' :: ';' :: t)) = true from h]
              simp
            rw [ampOk_cons_amp, hp, Bool.true_and,
              ampOk_cons_ne '#' _ (by decide), ampOk_cons_ne 'x' _ (by decide),
              ampOk_cons_ne '2' _ (by decide), ampOk_cons_ne '7' _ (by decide),
              ampOk_cons_ne ';' _ (by decide)]
          · simp only [if_neg h1, if_neg h2, if_neg h3, if_neg h4, if_neg h5]
            show ampOk (c :: t) = ampOk t
            exact ampOk_cons_ne c t h1

theorem ampOk_flatMap (s : List Char) : ampOk (s.flatMap escChar) = true := by
  induction s with
  | nil => rfl
  | cons x xs ih => simpa [ampOk_escChar] using ih

theorem mem_escChar_not_special (x c : Char) (hmem : c ∈ escChar x) :
    ¬(c = '<' ∨ c = '>' ∨ c = '"' ∨ c = Char.ofNat 39) := by
  unfold escChar at hmem
  by_cases h1 : x = '&'
  · rw [if_pos h1] at hmem
    have he : pstr "&amp;" = ['&', 'a', 'm', 'p', ';'] := rfl
    rw [he] at hmem
    simp only [List.mem_cons, List.not_mem_nil, or_false] at hmem
    rcases hmem with rfl | rfl | rfl | rfl | rfl <;> decide
  · rw [if_neg h1] at hmem
    by_cases h2 : x = '<'
    · rw [if_pos h2] at hmem
      have he : pstr "&lt;" = ['&', 'l', 't', ';'] := rfl
      rw [he] at hmem
      simp only [List.mem_cons, List.not_mem_nil, or_false] at hmem
      rcases hmem with rfl | rfl | rfl | rfl <;> decide
    · rw [if_neg h2] at hmem
      by_cases h3 : x = '>'
      · rw [if_pos h3] at hmem
        have he : pstr "&gt;" = ['&', 'g', 't', ';'] := rfl
        rw [he] at hmem
        simp only [List.mem_cons, List.not_mem_nil, or_false] at hmem
        rcases hmem with rfl | rfl | rfl | rfl <;> decide
      · rw [if_neg h3] at hmem
        by_cases h4 : x = '"'
        · rw [if_pos h4] at hmem
          have he : pstr "&quot;" = ['&', 'q', 'u', 'o', 't', ';'] := rfl
          rw [he] at hmem
          simp only [List.mem_cons, List.not_mem_nil, or_false] at hmem
          rcases hmem with rfl | rfl | rfl | rfl | rfl | rfl <;> decide
        · rw [if_neg h4] at hmem
          by_cases h5 : x = Char.ofNat 39
          · rw [if_pos h5] at hmem
            have he : pstr "&#x27;" = ['&', '#', 'x', '2', '7', ';'] := rfl
            rw [he] at hmem
            simp only [List.mem_cons, List.not_mem_nil, or_false] at hmem
            rcases hmem with rfl | rfl | rfl | rfl | rfl | rfl <;> decide
          · rw [if_neg h5] at hmem
            simp only [List.mem_singleton] at hmem
            subst hmem
            simp only [not_or]
            exact ⟨h2, h3, h4, h5⟩

/-- C3 counterexample: on the one-character input consisting of an
apostrophe, `sanitize_string` produces the numeric character reference
`&#x27;`, not the named entity `&apos;` that the claim's words prescribe. -/
theorem c3_counterexample :
    sanitize_string (pstr "\x27") ≠ claimSanitizeNamed (pstr "\x27") := by
  decide

/-- C3 (amended): `sanitize_string s` equals `s` with surrounding whitespace
trimmed and then each occurrence of the five HTML-special characters
replaced character-wise by its HTML escape — `&amp;` `&lt;` `&gt;` `&quot;`
and, for the apostrophe, the numeric character reference `&#x27;` (not a
named entity) — with every other character passing through unchanged;
consequently the sanitized output contains no raw `<`, `>`, `"` or
apostrophe at all, and every ampersand in it starts one of the five escape
sequences. -/
theorem c3_sanitize_characterization (s : List Char) :
    sanitize_string s = (pyStrip s).flatMap escChar ∧
    ((sanitize_string s).all fun c =>
      !(c == '<' || c == '>' || c == '"' || c == Char.ofNat 39)) = true ∧
    ampOk (sanitize_string s) = true := by
  have hchar : sanitize_string s = (pyStrip s).flatMap escChar :=
    html_escape_eq_flatMap (pyStrip s)
  refine ⟨hchar, ?_, ?_⟩
  · rw [hchar, List.all_eq_true]
    intro c hc
    rcases List.mem_flatMap.mp hc with ⟨x, _, hmem⟩
    have h := mem_escChar_not_special x c hmem
    simp only [not_or] at h
    obtain ⟨h1, h2, h3, h4⟩ := h
    simp [h1, h2, h3, h4]
  · rw [hchar]
    exact ampOk_flatMap (pyStrip s)

/-- Timezone-aware timestamps (`datetime` values) compare chronologically;
they are modelled as integers (e.g. epoch seconds).  The parsing function
`datetime.fromisoformat` is an external stdlib collaborator and appears as
the `parseIso` field of `GitEnv` below. -/
abbrev Timestamp := Int

/-- The `Loginfo` dataclass from `models.py:48-63`, holding one file's
latest-change facts.  Field order follows the source. -/
structure Loginfo where
  filepath : List Char
  timestamp : Timestamp
  author : List Char
  message : List Char
  hash_short : List Char
  hash_full : List Char
  repo_url : List Char
  latest_changes_page_path : List Char
  repo_vendor : List Char
  branch : List Char
deriving DecidableEq

/-- Outcome of `Repo(search_parent_directories=True)` / `repo.active_branch`
in `git_adapter.py:85-86`: success with the active branch name, the
`InvalidGitRepositoryError` raised when no repository root is found in the
current directory or its ancestors, or any other exception. -/
inductive RepoOpenResult where
  | ok (branch : List Char)
  | invalidRepo
  | otherFailure
deriving DecidableEq

/-- Outcome of one `git.log(...)` subprocess call in `git_adapter.py:122`:
its raw stdout, a `GitCommandError`, or any other exception. -/
inductive GitLogResult where
  | ok (raw : List Char)
  | commandError
  | otherFailure
deriving DecidableEq

/-- The external git/datetime collaborators of `get_recent_changes`:
`repoOpen` models opening the working copy and reading the active branch,
`lsFiles` models `git.ls_files(limit_to_docs_dir)` (raw stdout), `gitLog`
models the per-file `git.log` query, and `parseIso` models
`datetime.fromisoformat` (`none` = `ValueError`), returning the parsed
timezone-aware timestamp. -/
structure GitEnv where
  repoOpen : RepoOpenResult
  lsFiles : List Char → List Char
  gitLog : List Char → GitLogResult
  parseIso : List Char → Option Timestamp

/-- How an invocation of the embedded code can abort: `pluginError` models
`raise PluginError` (a build-aborting error), `unboundLocalError` models the
`UnboundLocalError` that escapes `get_recent_changes` when `files` is read
without having been assigned. -/
inductive PyError where
  | pluginError
  | unboundLocalError
deriving DecidableEq

/-- Python `str.split(sep)` for a single-character separator: always yields
at least one (possibly empty) field. -/
def splitOnChar (sep : Char) : List Char → List (List Char)
  | [] => [[]]
  | c :: cs =>
    match splitOnChar sep cs with
    | [] => [[]]
    | r :: rs => if c = sep then [] :: r :: rs else (c :: r) :: rs

/-- The `Z`-suffix normalisation of `git_adapter.py:137-138`: when the
timestamp string ends in `Z`, *every* `Z` in it is replaced by `+00:00`
(Python `str.replace` is global). -/
def zFix (s : List Char) : List Char :=
  if s.getLast? = some 'Z' then replaceChar 'Z' (pstr "+00:00") s else s

/-- The body of the per-file loop of `get_recent_changes`
(`git_adapter.py:118-167`): run `git log -1` on the file, split the raw
record on the NUL separator, sanitize every field, normalise and parse the
timestamp (a `ValueError` here is caught by the catch-all and re-raised as
`PluginError`), and build the `Loginfo`; accessing a missing field raises
`IndexError`, which is logged and skips the file, as is a
`GitCommandError` from the subprocess. -/
def processFile (env : GitEnv) (repo_url repo_vendor latest_changes_page_path
    branch file : List Char) : Except PyError (Option Loginfo) :=
  match env.gitLog file with
  | .commandError => .ok none
  | .otherFailure => .error .pluginError
  | .ok raw =>
    let loginfo_safe := (splitOnChar '\x00' raw).map sanitize_string
    let timestamp_str := zFix (loginfo_safe.headD [])
    match env.parseIso timestamp_str with
    | none => .error .pluginError
    | some ts =>
      if 5 ≤ loginfo_safe.length then
        .ok (some
          { filepath := file
            timestamp := ts
            author := loginfo_safe.getD 3 []
            message := loginfo_safe.getD 4 []
            hash_short := loginfo_safe.getD 1 []
            hash_full := loginfo_safe.getD 2 []
            repo_url := repo_url
            latest_changes_page_path := latest_changes_page_path
            repo_vendor := repo_vendor
            branch := branch })
      else .ok none

/-- The whole per-file loop: loginfos are appended in file-enumeration
order; a `PluginError` raised for one file aborts the whole loop. -/
def collectLoginfos (env : GitEnv) (repo_url repo_vendor
    latest_changes_page_path branch : List Char) :
    List (List Char) → Except PyError (List Loginfo)
  | [] => .ok []
  | f :: fs =>
    match processFile env repo_url repo_vendor latest_changes_page_path branch f with
    | .error e => .error e
    | .ok o =>
      match collectLoginfos env repo_url repo_vendor latest_changes_page_path branch fs with
      | .error e => .error e
      | .ok rest => .ok (match o with | some l => l :: rest | none => rest)

/-- One step of the stable descending-by-timestamp sort: insert `x` (an
earlier element of the input) in front of the first element whose timestamp
is `≤ x.timestamp`, i.e. after every strictly more recent element and
before every equally recent one. -/
def insertByTsDesc (x : Loginfo) : List Loginfo → List Loginfo
  | [] => [x]
  | y :: ys =>
    if y.timestamp ≤ x.timestamp then x :: y :: ys else y :: insertByTsDesc x ys

/-- Python's `sorted(loginfos, key=attrgetter("timestamp"), reverse=True)`
(`git_adapter.py:169`): `sorted` is a stable sort and `reverse=True` keeps
equal keys in their original order, so its output is the unique
non-increasing reordering that preserves the relative order of entries with
equal timestamps — realised here as a stable insertion sort. -/
def pySortedByTsDesc : List Loginfo → List Loginfo
  | [] => []
  | x :: xs => insertByTsDesc x (pySortedByTsDesc xs)

/-- The pluralized fragment of the truncation notice
(`git_adapter.py:180-182`). -/
def pluralizedString (history_limit : Int) : List Char :=
  if history_limit = 1 then pstr "entry is"
  else (toString history_limit).data ++ pstr " entries are"

/-- The full truncation notice (`git_adapter.py:183-184`): an HTML
paragraph, surrounded by blank lines. -/
def historyLimitHint (history_limit : Int) : List Char :=
  pstr "\n\n<p style=\"margin-bottom: 1em; margin-top: 1em; padding-top: .5em; font-style: italic; font-size: smaller;\">Only the most recent "
    ++ pluralizedString history_limit ++ pstr " displayed.</p>\n\n"

/-- `get_recent_changes` from `git_adapter.py:72-186`.  Notable control
flow, mirrored faithfully: on `InvalidGitRepositoryError` the handler only
logs a warning (the `return` in the source is commented out), so execution
falls through to `len(files)` with the local `files` never assigned and an
`UnboundLocalError` escapes; any other open failure raises `PluginError`.
On success the `ls_files` output is split on newlines, each file is
processed (see `processFile`), the entries are stably sorted by timestamp
descending, and a positive `history_limit` smaller than the entry count
truncates the list and produces the hint. -/
def get_recent_changes (env : GitEnv) (repo_url repo_vendor : List Char)
    (history_limit : Int) (limit_to_docs_dir latest_changes_page_path : List Char) :
    Except PyError (List Loginfo × List Char) :=
  match env.repoOpen with
  | .invalidRepo => .error .unboundLocalError
  | .otherFailure => .error .pluginError
  | .ok branch =>
    let files := splitOnChar '\n' (env.lsFiles limit_to_docs_dir)
    match collectLoginfos env repo_url repo_vendor latest_changes_page_path branch files with
    | .error e => .error e
    | .ok loginfos =>
      let loginfos := pySortedByTsDesc loginfos
      if 0 < history_limit ∧ history_limit < (loginfos.length : Int) then
        .ok (loginfos.take history_limit.toNat, historyLimitHint history_limit)
      else
        .ok (loginfos, [])

theorem mem_insertByTsDesc (z x : Loginfo) (l : List Loginfo) :
    z ∈ insertByTsDesc x l ↔ z = x ∨ z ∈ l := by
  induction l with
  | nil => simp [insertByTsDesc]
  | cons y ys ih =>
    unfold insertByTsDesc
    by_cases hc : y.timestamp ≤ x.timestamp
    · rw [if_pos hc]; simp
    · rw [if_neg hc]; simp [ih]; tauto

theorem sorted_insertByTsDesc (x : Loginfo) (l : List Loginfo)
    (h : List.Sorted (fun a b => b.timestamp ≤ a.timestamp) l) :
    List.Sorted (fun a b => b.timestamp ≤ a.timestamp) (insertByTsDesc x l) := by
  induction l with
  | nil => simp [insertByTsDesc]
  | cons y ys ih =>
    rw [List.sorted_cons] at h
    obtain ⟨hy, hys⟩ := h
    unfold insertByTsDesc
    by_cases hc : y.timestamp ≤ x.timestamp
    · rw [if_pos hc, List.sorted_cons]
      refine ⟨?_, ?_⟩
      · intro b hb
        rcases List.mem_cons.mp hb with rfl | hb'
        · exact hc
        · exact le_trans (hy b hb') hc
      · rw [List.sorted_cons]; exact ⟨hy, hys⟩
    · rw [if_neg hc, List.sorted_cons]
      refine ⟨?_, ih hys⟩
      intro b hb
      rcases (mem_insertByTsDesc b x ys).mp hb with rfl | hb'
      · exact le_of_lt (not_le.mp hc)
      · exact hy b hb'

theorem sorted_pySortedByTsDesc (l : List Loginfo) :
    List.Sorted (fun a b => b.timestamp ≤ a.timestamp) (pySortedByTsDesc l) := by
  induction l with
  | nil => simp [pySortedByTsDesc]
  | cons x xs ih => exact sorted_insertByTsDesc x (pySortedByTsDesc xs) ih

theorem filter_insertByTsDesc_of_eq (t : Timestamp) (x : Loginfo) (l : List Loginfo)
    (hx : x.timestamp = t) :
    (insertByTsDesc x l).filter (fun e => e.timestamp == t) =
      x :: l.filter (fun e => e.timestamp == t) := by
  induction l with
  | nil => simp [insertByTsDesc, List.filter, hx]
  | cons y ys ih =>
    unfold insertByTsDesc
    by_cases hc : y.timestamp ≤ x.timestamp
    · rw [if_pos hc]
      simp [List.filter_cons, hx]
    · rw [if_neg hc]
      have hyne : (y.timestamp == t) = false := by
        have hlt : x.timestamp < y.timestamp := not_le.mp hc
        rw [hx] at hlt
        simp [ne_of_gt hlt]
      simp [List.filter_cons, hyne, ih]

theorem filter_insertByTsDesc_of_ne (t : Timestamp) (x : Loginfo) (l : List Loginfo)
    (hx : x.timestamp ≠ t) :
    (insertByTsDesc x l).filter (fun e => e.timestamp == t) =
      l.filter (fun e => e.timestamp == t) := by
  have hxf : (x.timestamp == t) = false := by simp [hx]
  induction l with
  | nil => simp [insertByTsDesc, List.filter, hxf]
  | cons y ys ih =>
    unfold insertByTsDesc
    by_cases hc : y.timestamp ≤ x.timestamp
    · rw [if_pos hc]
      simp [List.filter_cons, hxf]
    · rw [if_neg hc]
      simp [List.filter_cons, ih]

/-- Stability of the sort: for every timestamp value the entries carrying it
appear in the sorted output exactly as they appear in the input. -/
theorem filter_pySortedByTsDesc (t : Timestamp) (l : List Loginfo) :
    (pySortedByTsDesc l).filter (fun e => e.timestamp == t) =
      l.filter (fun e => e.timestamp == t) := by
  induction l with
  | nil => rfl
  | cons x xs ih =>
    by_cases hx : x.timestamp = t
    · rw [pySortedByTsDesc, filter_insertByTsDesc_of_eq t x _ hx, ih,
        List.filter_cons]
      simp [hx]
    · rw [pySortedByTsDesc, filter_insertByTsDesc_of_ne t x _ hx, ih,
        List.filter_cons]
      simp [hx]

/-- C1: whenever `get_recent_changes` returns normally, the returned entry
list is sorted by timestamp in non-increasing order, and for each timestamp
value the entries carrying it appear as an in-order sublist of the
successfully parsed entries in their original file-enumeration order
(stable sort), regardless of the enumeration order. -/
theorem c1_sorted_and_stable (env : GitEnv) (repo_url repo_vendor : List Char)
    (history_limit : Int) (limit_to_docs_dir latest_changes_page_path : List Char)
    (entries : List Loginfo) (notice : List Char)
    (h : get_recent_changes env repo_url repo_vendor history_limit
      limit_to_docs_dir latest_changes_page_path = .ok (entries, notice)) :
    List.Sorted (fun a b => b.timestamp ≤ a.timestamp) entries ∧
    ∃ branch parsed, env.repoOpen = .ok branch ∧
      collectLoginfos env repo_url repo_vendor latest_changes_page_path branch
        (splitOnChar '\n' (env.lsFiles limit_to_docs_dir)) = .ok parsed ∧
      ∀ t : Timestamp,
        List.Sublist (entries.filter (fun e => e.timestamp == t))
          (parsed.filter (fun e => e.timestamp == t)) := by
  unfold get_recent_changes at h
  cases hrepo : env.repoOpen with
  | invalidRepo => rw [hrepo] at h; simp at h
  | otherFailure => rw [hrepo] at h; simp at h
  | ok branch =>
    rw [hrepo] at h
    dsimp only at h
    cases hcoll : collectLoginfos env repo_url repo_vendor latest_changes_page_path
        branch (splitOnChar '\n' (env.lsFiles limit_to_docs_dir)) with
    | error e => rw [hcoll] at h; simp at h
    | ok parsed =>
      rw [hcoll] at h
      dsimp only at h
      by_cases hlim : 0 < history_limit ∧
          history_limit < ((pySortedByTsDesc parsed).length : Int)
      · rw [if_pos hlim] at h
        simp only [Except.ok.injEq, Prod.mk.injEq] at h
        obtain ⟨he, _⟩ := h
        subst he
        refine ⟨?_, branch, parsed, rfl, hcoll, ?_⟩
        · exact List.Pairwise.sublist (List.take_sublist _ _)
            (sorted_pySortedByTsDesc parsed)
        · intro t
          have hsub : List.Sublist
              (((pySortedByTsDesc parsed).take history_limit.toNat).filter
                (fun e => e.timestamp == t))
              ((pySortedByTsDesc parsed).filter (fun e => e.timestamp == t)) :=
            List.Sublist.filter _ (List.take_sublist _ _)
          rw [filter_pySortedByTsDesc t parsed] at hsub
          exact hsub
      · rw [if_neg hlim] at h
        simp only [Except.ok.injEq, Prod.mk.injEq] at h
        obtain ⟨he, _⟩ := h
        subst he
        refine ⟨sorted_pySortedByTsDesc parsed, branch, parsed, rfl, hcoll, ?_⟩
        intro t
        rw [filter_pySortedByTsDesc t parsed]

/-- Concrete environment for exercising `get_recent_changes`: a repository
on branch `main` with two tracked files whose latest commits carry the same
timestamp. -/
def envC1 : GitEnv where
  repoOpen := .ok (pstr "main")
  lsFiles := fun _ => pstr "a.md\nb.md"
  gitLog := fun file =>
    if file = pstr "a.md" then
      .ok (pstr "2024-01-01T10:00:00+00:00\x00a1\x00a1f\x00AnnA\x00first")
    else
      .ok (pstr "2024-01-01T10:00:00+00:00\x00b2\x00b2f\x00BenB\x00second")
  parseIso := fun s =>
    if s = pstr "2024-01-01T10:00:00+00:00" then some 100 else none

/-- The entry parsed for `a.md` in `envC1`. -/
def entC1A : Loginfo where
  filepath := pstr "a.md"
  timestamp := 100
  author := pstr "AnnA"
  message := pstr "first"
  hash_short := pstr "a1"
  hash_full := pstr "a1f"
  repo_url := []
  latest_changes_page_path := pstr "p.md"
  repo_vendor := []
  branch := pstr "main"

/-- The entry parsed for `b.md` in `envC1`. -/
def entC1B : Loginfo where
  filepath := pstr "b.md"
  timestamp := 100
  author := pstr "BenB"
  message := pstr "second"
  hash_short := pstr "b2"
  hash_full := pstr "b2f"
  repo_url := []
  latest_changes_page_path := pstr "p.md"
  repo_vendor := []
  branch := pstr "main"

/-- Witness for C1: on `envC1` the call returns normally (two equal-timestamp
entries, kept in enumeration order), and the theorem's conclusion holds
there. -/
theorem c1_witness :
    get_recent_changes envC1 [] [] (-1) (pstr ".") (pstr "p.md") =
      .ok ([entC1A, entC1B], []) ∧
    (List.Sorted (fun a b => b.timestamp ≤ a.timestamp) [entC1A, entC1B] ∧
      ∃ branch parsed, envC1.repoOpen = .ok branch ∧
        collectLoginfos envC1 [] [] (pstr "p.md") branch
          (splitOnChar '\n' (envC1.lsFiles (pstr "."))) = .ok parsed ∧
        ∀ t : Timestamp,
          List.Sublist (List.filter (fun e => e.timestamp == t) [entC1A, entC1B])
            (parsed.filter (fun e => e.timestamp == t))) := by
  have h : get_recent_changes envC1 [] [] (-1) (pstr ".") (pstr "p.md") =
      .ok ([entC1A, entC1B], []) := by rfl
  exact ⟨h, c1_sorted_and_stable envC1 [] [] (-1) (pstr ".") (pstr "p.md")
    [entC1A, entC1B] [] h⟩

/-- The sentence that the amended C2 claims the truncation notice reads:
singular for a limit of 1, otherwise the decimal limit between "recent"
and "entries" (matching the source's f-string, where Python `str(int)` and
Lean's `toString` agree on decimal digits). -/
def claimAmendedSentence (n : Int) : List Char :=
  if n = 1 then pstr "Only the most recent entry is displayed."
  else pstr "Only the most recent " ++ (toString n).data
    ++ pstr " entries are displayed."

/-- The notice component of a `get_recent_changes` outcome (empty for an
aborted run). -/
def noticeOf : Except PyError (List Loginfo × List Char) → List Char
  | .ok (_, n) => n
  | .error _ => []

theorem historyLimitHint_decomp (n : Int) :
    historyLimitHint n =
      pstr "\n\n<p style=\"margin-bottom: 1em; margin-top: 1em; padding-top: .5em; font-style: italic; font-size: smaller;\">"
        ++ (pstr "Only the most recent " ++ pluralizedString n ++ pstr " displayed.")
        ++ pstr "</p>\n\n" := by
  unfold historyLimitHint
  rw [show pstr "\n\n<p style=\"margin-bottom: 1em; margin-top: 1em; padding-top: .5em; font-style: italic; font-size: smaller;\">Only the most recent "
      = pstr "\n\n<p style=\"margin-bottom: 1em; margin-top: 1em; padding-top: .5em; font-style: italic; font-size: smaller;\">"
        ++ pstr "Only the most recent " from rfl]
  rw [show pstr " displayed.</p>\n\n" = pstr " displayed." ++ pstr "</p>\n\n" from rfl]
  simp [List.append_assoc]

/-- The amended sentence occurs verbatim inside the notice. -/
theorem claimAmendedSentence_infix (n : Int) :
    claimAmendedSentence n <:+: historyLimitHint n := by
  refine ⟨pstr "\n\n<p style=\"margin-bottom: 1em; margin-top: 1em; padding-top: .5em; font-style: italic; font-size: smaller;\">",
    pstr "</p>\n\n", ?_⟩
  rw [historyLimitHint_decomp]
  unfold claimAmendedSentence pluralizedString
  by_cases h1 : n = 1
  · rw [if_pos h1, if_pos h1]
    rw [show pstr "Only the most recent entry is displayed."
        = pstr "Only the most recent " ++ pstr "entry is" ++ pstr " displayed." from rfl]
  · rw [if_neg h1, if_neg h1]
    rw [show pstr " entries are displayed."
        = pstr " entries are" ++ pstr " displayed." from rfl]
    simp [List.append_assoc]

/-- C2 (amended): with the repository open and the per-file loop successful,
a positive `history_limit` smaller than the number of parsed entries makes
`get_recent_changes` return exactly the first `history_limit` elements of
the sorted list together with a notice — an HTML paragraph wrapped in blank
lines whose text reads "Only the most recent N entries are displayed." for
a limit N > 1 and "Only the most recent entry is displayed." for a limit
of 1 — while a zero or negative `history_limit` returns the full sorted
list and the empty notice. -/
theorem c2_limit_and_notice (env : GitEnv) (repo_url repo_vendor : List Char)
    (history_limit : Int) (limit_to_docs_dir latest_changes_page_path : List Char)
    (branch : List Char) (parsed : List Loginfo)
    (hrepo : env.repoOpen = .ok branch)
    (hcoll : collectLoginfos env repo_url repo_vendor latest_changes_page_path branch
      (splitOnChar '\n' (env.lsFiles limit_to_docs_dir)) = .ok parsed) :
    (0 < history_limit →
      history_limit < ((pySortedByTsDesc parsed).length : Int) →
      get_recent_changes env repo_url repo_vendor history_limit
          limit_to_docs_dir latest_changes_page_path =
        .ok ((pySortedByTsDesc parsed).take history_limit.toNat,
          historyLimitHint history_limit) ∧
      claimAmendedSentence history_limit <:+: historyLimitHint history_limit) ∧
    (history_limit ≤ 0 →
      get_recent_changes env repo_url repo_vendor history_limit
          limit_to_docs_dir latest_changes_page_path =
        .ok (pySortedByTsDesc parsed, [])) := by
  constructor
  · intro hpos hlen
    refine ⟨?_, claimAmendedSentence_infix history_limit⟩
    unfold get_recent_changes
    rw [hrepo]
    dsimp only
    rw [hcoll]
    dsimp only
    rw [if_pos ⟨hpos, hlen⟩]
  · intro hneg
    unfold get_recent_changes
    rw [hrepo]
    dsimp only
    rw [hcoll]
    dsimp only
    rw [if_neg (fun hc => absurd hc.1 (not_lt.mpr hneg))]

/-- Concrete environment with three tracked files carrying three distinct,
increasing commit timestamps. -/
def envC2 : GitEnv where
  repoOpen := .ok (pstr "main")
  lsFiles := fun _ => pstr "a.md\nb.md\nc.md"
  gitLog := fun file =>
    if file = pstr "a.md" then
      .ok (pstr "2024-01-01T10:00:00+00:00\x00a1\x00a1f\x00A\x00m1")
    else if file = pstr "b.md" then
      .ok (pstr "2024-01-02T10:00:00+00:00\x00b2\x00b2f\x00B\x00m2")
    else
      .ok (pstr "2024-01-03T10:00:00+00:00\x00c3\x00c3f\x00C\x00m3")
  parseIso := fun s =>
    if s = pstr "2024-01-01T10:00:00+00:00" then some 1
    else if s = pstr "2024-01-02T10:00:00+00:00" then some 2
    else if s = pstr "2024-01-03T10:00:00+00:00" then some 3
    else none

/-- The entry parsed for `a.md` in `envC2` (oldest). -/
def entC2A : Loginfo where
  filepath := pstr "a.md"
  timestamp := 1
  author := pstr "A"
  message := pstr "m1"
  hash_short := pstr "a1"
  hash_full := pstr "a1f"
  repo_url := []
  latest_changes_page_path := pstr "p.md"
  repo_vendor := []
  branch := pstr "main"

/-- The entry parsed for `b.md` in `envC2`. -/
def entC2B : Loginfo where
  filepath := pstr "b.md"
  timestamp := 2
  author := pstr "B"
  message := pstr "m2"
  hash_short := pstr "b2"
  hash_full := pstr "b2f"
  repo_url := []
  latest_changes_page_path := pstr "p.md"
  repo_vendor := []
  branch := pstr "main"

/-- The entry parsed for `c.md` in `envC2` (most recent). -/
def entC2C : Loginfo where
  filepath := pstr "c.md"
  timestamp := 3
  author := pstr "C"
  message := pstr "m3"
  hash_short := pstr "c3"
  hash_full := pstr "c3f"
  repo_url := []
  latest_changes_page_path := pstr "p.md"
  repo_vendor := []
  branch := pstr "main"

/-- The entries of `envC2` in file-enumeration order. -/
def parsedC2 : List Loginfo := [entC2A, entC2B, entC2C]

set_option maxRecDepth 8000

/-- C2 counterexample: with three parsed entries and `history_limit = 2`,
truncation happens (the notice is nonempty) but the notice does not contain
the claim's sentence "Only the 2 most recent entries are displayed." — the
source emits "Only the most recent 2 entries are displayed." instead — and
with `history_limit = 1` the returned notice is not exactly the sentence
"Only the most recent entry is displayed.", since the source wraps it in an
HTML paragraph surrounded by blank lines. -/
theorem c2_counterexample :
    noticeOf (get_recent_changes envC2 [] [] 2 (pstr ".") (pstr "p.md")) ≠ [] ∧
    ¬(pstr "Only the 2 most recent entries are displayed." <:+:
        noticeOf (get_recent_changes envC2 [] [] 2 (pstr ".") (pstr "p.md"))) ∧
    noticeOf (get_recent_changes envC2 [] [] 1 (pstr ".") (pstr "p.md")) ≠
      pstr "Only the most recent entry is displayed." := by
  refine ⟨by decide, by decide, by decide⟩

/-- Witness for C2: the amended theorem applied to `envC2`, once with
`history_limit = 2` (truncation to the two most recent entries, notice
present) and once with `history_limit = -1` (full list, empty notice). -/
theorem c2_witness :
    get_recent_changes envC2 [] [] 2 (pstr ".") (pstr "p.md") =
      .ok ((pySortedByTsDesc parsedC2).take (2 : Int).toNat,
        historyLimitHint 2) ∧
    claimAmendedSentence 2 <:+: historyLimitHint 2 ∧
    get_recent_changes envC2 [] [] (-1) (pstr ".") (pstr "p.md") =
      .ok (pySortedByTsDesc parsedC2, []) := by
  have h1 := (c2_limit_and_notice envC2 [] [] 2 (pstr ".") (pstr "p.md")
    (pstr "main") parsedC2 rfl (by rfl)).1 (by decide) (by decide)
  have h2 := (c2_limit_and_notice envC2 [] [] (-1) (pstr ".") (pstr "p.md")
    (pstr "main") parsedC2 rfl (by rfl)).2 (by decide)
  exact ⟨h1.1, h1.2, h2⟩

/-- Environment in which no version-control repository root exists in the
current directory or any ancestor: `Repo(search_parent_directories=True)`
raises `InvalidGitRepositoryError`; no other git interaction is possible. -/
def envNoRepo : GitEnv where
  repoOpen := .invalidRepo
  lsFiles := fun _ => []
  gitLog := fun _ => .commandError
  parseIso := fun _ => none

/-- C4 (code defect): invoked outside any repository, `get_recent_changes`
does *not* return normally with zero entries — the `InvalidGitRepositoryError`
handler in `git_adapter.py:88-93` only logs the warning (the normal `return`
is commented out with a TODO), execution falls through to
`len(files)` at `git_adapter.py:105` with `files` never assigned, and the
resulting `UnboundLocalError` escapes the function, aborting the build. -/
theorem c4_absent_repo_crashes :
    get_recent_changes envNoRepo [] [] (-1) (pstr ".") (pstr "p.md") =
      .error .unboundLocalError := by
  rfl

/-- The supported hosting vendors: the keys of `SUPPORTED_REMOTE_REPOS`
from `models.py:12-45` (the legacy table in `plugin.py:38-55` has the same
keys), in source order. -/
def supportedVendors : List (List Char) :=
  [pstr "github", pstr "gitlab", pstr "gitea", pstr "bitbucket"]

/-- Python `str.lower()` (ASCII model, via `Char.toLower`). -/
def pyLower (s : List Char) : List Char := s.map Char.toLower

/-- `get_repo_vendor` from `git_adapter.py:20-69`.  Mirrored faithfully:
both `repo_name` and `repo_vendor` are lowercased; if both are non-empty
the configured `repo_vendor` wins (a conflict is logged as a warning); if
exactly one is non-empty it is used.  The final "Unsetting not supported
repo_vendor" check at `git_adapter.py:61` tests the *configured parameter*
`repo_vendor`, not the resolved `usable_repo_vendor`. -/
def get_repo_vendor (repo_url repo_name repo_vendor : List Char) : List Char :=
  let repo_name := pyLower repo_name
  let repo_vendor := pyLower repo_vendor
  let usable_repo_vendor :=
    if repo_name ≠ [] ∧ repo_vendor ≠ [] then repo_vendor
    else if repo_name ≠ [] ∧ repo_vendor = [] then repo_name
    else if repo_name = [] ∧ repo_vendor ≠ [] then repo_vendor
    else []
  if repo_vendor ≠ [] ∧ repo_vendor ∉ supportedVendors then []
  else usable_repo_vendor

/-- The legacy `get_repo_vendor` from `plugin.py:178-213` (argument order
`url, repo_vendor_configured, repo_name` as in the source): identical
resolution, but its unsetting check at `plugin.py:207` tests the *resolved*
variable. -/
def plugin_get_repo_vendor (url repo_vendor_configured repo_name : List Char) :
    List Char :=
  let repo_vendor_discovered := pyLower repo_name
  let repo_vendor_configured := pyLower repo_vendor_configured
  let repo_vendor :=
    if repo_vendor_discovered ≠ [] ∧ repo_vendor_configured ≠ [] then
      repo_vendor_configured
    else if repo_vendor_discovered ≠ [] ∧ repo_vendor_configured = [] then
      repo_vendor_discovered
    else if repo_vendor_discovered = [] ∧ repo_vendor_configured ≠ [] then
      repo_vendor_configured
    else []
  if repo_vendor ≠ [] ∧ repo_vendor ∉ supportedVendors then []
  else repo_vendor

/-- C5 (code defect): with no configured vendor and the unsupported
discovered hint "codeberg", `git_adapter.get_repo_vendor` resolves to
"codeberg" — a non-empty vendor outside the supported set — because its
unsetting check tests the configured parameter (empty here) instead of the
resolved value; the legacy implementation of the same resolver in
`plugin.py` returns the empty string on the same input, as the claim
requires. -/
theorem c5_unsupported_vendor_leaks :
    get_repo_vendor (pstr "https://example.org/ns/proj") (pstr "codeberg") [] =
      pstr "codeberg" ∧
    pstr "codeberg" ∉ supportedVendors ∧
    plugin_get_repo_vendor (pstr "https://example.org/ns/proj") []
      (pstr "codeberg") = [] := by
  refine ⟨by decide, by decide, by decide⟩

/-- A URL template of `SUPPORTED_REMOTE_REPOS` in `models.py:29-45`,
represented as the substitution function applied by `str.format` in
`Loginfo._get_remote_url`, taking `repo_url`, `commit_hash`, `branch` and
`filepath`. -/
abbrev UrlTpl := List Char → List Char → List Char → List Char → List Char

/-- `SUPPORTED_REMOTE_REPOS[vendor][url_type]` lookup from `models.py`:
commit-hash URL template (`hash_url_tpl`) per vendor.  The template texts:
github/gitea `{repo_url}/commit/{commit_hash}`, bitbucket
`{repo_url}/commits/{commit_hash}`, and gitlab the same as github with an
extra `-` path segment after the repository URL. -/
def models_hash_url_tpl (vendor : List Char) : Option UrlTpl :=
  if vendor = pstr "github" then
    some fun ru ch _b _f => ru ++ pstr "/commit/" ++ ch
  else if vendor = pstr "gitlab" then
    some fun ru ch _b _f => ru ++ pstr "/-/commit/" ++ ch
  else if vendor = pstr "gitea" then
    some fun ru ch _b _f => ru ++ pstr "/commit/" ++ ch
  else if vendor = pstr "bitbucket" then
    some fun ru ch _b _f => ru ++ pstr "/commits/" ++ ch
  else none

/-- File URL template (`file_remote_url_tpl`) per vendor, from `models.py`:
github `{repo_url}/blob/{branch}/{filepath}`, gitea
`{repo_url}/src/branch/{branch}/{filepath}`, bitbucket
`{repo_url}/browse/{filepath}?at={branch}`, and gitlab the same as github
with an extra `-` path segment after the repository URL. -/
def models_file_remote_url_tpl (vendor : List Char) : Option UrlTpl :=
  if vendor = pstr "github" then
    some fun ru _ch b f => ru ++ pstr "/blob/" ++ b ++ pstr "/" ++ f
  else if vendor = pstr "gitlab" then
    some fun ru _ch b f => ru ++ pstr "/-/blob/" ++ b ++ pstr "/" ++ f
  else if vendor = pstr "gitea" then
    some fun ru _ch b f => ru ++ pstr "/src/branch/" ++ b ++ pstr "/" ++ f
  else if vendor = pstr "bitbucket" then
    some fun ru _ch b f => ru ++ pstr "/browse/" ++ f ++ pstr "?at=" ++ b
  else none

/-- `Loginfo._get_remote_url` from `models.py:65-77`:
`SUPPORTED_REMOTE_REPOS.get(self.repo_vendor, {})` followed by
`templates.get(url_type, "")` yields the empty template for an unknown or
empty vendor, and `"".format(...)` is the empty string; with a non-empty
`repo_url` the template is formatted, otherwise the empty string is
returned. -/
def Loginfo.getRemoteUrl (info : Loginfo) (tplLookup : List Char → Option UrlTpl) :
    List Char :=
  match tplLookup info.repo_vendor with
  | none => []
  | some tpl =>
    if info.repo_url ≠ [] then
      tpl info.repo_url info.hash_full info.branch info.filepath
    else []

/-- `Loginfo.get_hash_url` property (`models.py:79-82`). -/
def Loginfo.get_hash_url (info : Loginfo) : List Char :=
  info.getRemoteUrl models_hash_url_tpl

/-- `Loginfo.get_file_remote_url` property (`models.py:84-87`). -/
def Loginfo.get_file_remote_url (info : Loginfo) : List Char :=
  info.getRemoteUrl models_file_remote_url_tpl

/-- The `RepoURLs` dataclass from `plugin.py:58-61`. -/
structure RepoURLs where
  commit_hash_url : List Char
  filepath_url : List Char
deriving DecidableEq

/-- Markdown-link templates of the legacy `SUPPORTED_REMOTE_REPOS` table in
`plugin.py:38-55`: `hash_url_tpl` is
`[{linktext}]({repo_url}/.../{commit_hash})` and `filepath_url_tpl` is
`[{linktext}]({repo_url}/.../{filepath})`, with the same per-vendor paths
as the `models.py` table.  The pair holds (hash template taking linktext,
repo_url, commit_hash; file template taking linktext, repo_url, branch,
filepath). -/
def plugin_repo_tpls (vendor : List Char) :
    Option ((List Char → List Char → List Char → List Char) ×
      (List Char → List Char → List Char → List Char → List Char)) :=
  if vendor = pstr "github" then
    some (fun lt ru ch => pstr "[" ++ lt ++ pstr "](" ++ ru ++ pstr "/commit/" ++ ch ++ pstr ")",
      fun lt ru b f => pstr "[" ++ lt ++ pstr "](" ++ ru ++ pstr "/blob/" ++ b ++ pstr "/" ++ f ++ pstr ")")
  else if vendor = pstr "gitlab" then
    some (fun lt ru ch => pstr "[" ++ lt ++ pstr "](" ++ ru ++ pstr "/-/commit/" ++ ch ++ pstr ")",
      fun lt ru b f => pstr "[" ++ lt ++ pstr "](" ++ ru ++ pstr "/-/blob/" ++ b ++ pstr "/" ++ f ++ pstr ")")
  else if vendor = pstr "gitea" then
    some (fun lt ru ch => pstr "[" ++ lt ++ pstr "](" ++ ru ++ pstr "/commit/" ++ ch ++ pstr ")",
      fun lt ru b f => pstr "[" ++ lt ++ pstr "](" ++ ru ++ pstr "/src/branch/" ++ b ++ pstr "/" ++ f ++ pstr ")")
  else if vendor = pstr "bitbucket" then
    some (fun lt ru ch => pstr "[" ++ lt ++ pstr "](" ++ ru ++ pstr "/commits/" ++ ch ++ pstr ")",
      fun lt ru b f => pstr "[" ++ lt ++ pstr "](" ++ ru ++ pstr "/browse/" ++ f ++ pstr "?at=" ++ b ++ pstr ")")
  else none

/-- `get_remote_repo_urls` from `plugin.py:70-127`: the result starts as the
plain (non-link) short hash and filepath; only when both `repo_url` and
`repo_vendor` are truthy (non-empty) are both fields replaced by markdown
links built from the vendor templates, with the short hash / filepath as
link text and the full hash / full remote path as target.  A non-empty
unsupported vendor raises `KeyError` (`none` here). -/
def get_remote_repo_urls (repo_url repo_vendor branch commit_hash
    commit_hash_short filepath : List Char) : Option RepoURLs :=
  let init : RepoURLs := ⟨commit_hash_short, filepath⟩
  if repo_url ≠ [] ∧ repo_vendor ≠ [] then
    match plugin_repo_tpls repo_vendor with
    | none => none
    | some (htpl, ftpl) =>
      some ⟨htpl commit_hash_short repo_url commit_hash,
        ftpl filepath repo_url branch filepath⟩
  else some init

/-- C6: if `repo_vendor` or `repo_url` is empty, the derived commit-hash
and remote-file URLs of a `Loginfo` are both empty, and the legacy URL
builder leaves both table cells as the plain short hash and plain filepath
(no markdown link is ever partially constructed). -/
theorem c6_no_partial_urls (info : Loginfo) (repo_url repo_vendor branch
    commit_hash commit_hash_short filepath : List Char)
    (hinfo : info.repo_vendor = [] ∨ info.repo_url = [])
    (hargs : repo_vendor = [] ∨ repo_url = []) :
    info.get_hash_url = [] ∧ info.get_file_remote_url = [] ∧
    get_remote_repo_urls repo_url repo_vendor branch commit_hash
      commit_hash_short filepath = some ⟨commit_hash_short, filepath⟩ := by
  refine ⟨?_, ?_, ?_⟩
  · rcases hinfo with hv | hu
    · unfold Loginfo.get_hash_url Loginfo.getRemoteUrl
      rw [hv]
      rw [show models_hash_url_tpl [] = none from rfl]
    · unfold Loginfo.get_hash_url Loginfo.getRemoteUrl
      cases htpl : models_hash_url_tpl info.repo_vendor with
      | none => rfl
      | some tpl => rw [hu]; simp
  · rcases hinfo with hv | hu
    · unfold Loginfo.get_file_remote_url Loginfo.getRemoteUrl
      rw [hv]
      rw [show models_file_remote_url_tpl [] = none from rfl]
    · unfold Loginfo.get_file_remote_url Loginfo.getRemoteUrl
      cases htpl : models_file_remote_url_tpl info.repo_vendor with
      | none => rfl
      | some tpl => rw [hu]; simp
  · unfold get_remote_repo_urls
    have hcond : ¬(repo_url ≠ [] ∧ repo_vendor ≠ []) := by
      rcases hargs with hv | hu
      · exact fun hc => hc.2 hv
      · exact fun hc => hc.1 hu
    rw [if_neg hcond]

/-- The `Loginfo` used in the C6 witness: vendor `github` configured but no
repository URL. -/
def entC6 : Loginfo where
  filepath := pstr "docs/index.md"
  timestamp := 5
  author := pstr "A"
  message := pstr "m"
  hash_short := pstr "abcdef1"
  hash_full := pstr "abcdef1234567890"
  repo_url := []
  latest_changes_page_path := pstr "p.md"
  repo_vendor := pstr "github"
  branch := pstr "main"

/-- Witness for C6: at `entC6` (empty `repo_url`) and empty vendor
arguments, both derived URLs are empty and the legacy builder returns the
plain cells. -/
theorem c6_witness :
    (entC6.repo_vendor = [] ∨ entC6.repo_url = []) ∧
    (([] : List Char) = [] ∨ pstr "https://github.com/ns/proj" = []) ∧
    (entC6.get_hash_url = [] ∧ entC6.get_file_remote_url = [] ∧
      get_remote_repo_urls (pstr "https://github.com/ns/proj") [] (pstr "main")
        (pstr "abcdef1234567890") (pstr "abcdef1") (pstr "docs/index.md") =
        some ⟨pstr "abcdef1", pstr "docs/index.md"⟩) :=
  ⟨Or.inr rfl, Or.inl rfl,
    c6_no_partial_urls entC6 (pstr "https://github.com/ns/proj") [] (pstr "main")
      (pstr "abcdef1234567890") (pstr "abcdef1") (pstr "docs/index.md")
      (Or.inr rfl) (Or.inl rfl)⟩

/-- C7: for vendor `github`, repo URL `https://github.com/ns/proj`, branch
`main`, file `docs/index.md`, full hash `abcdef1234567890` and short hash
`abcdef1`, the URL builder produces exactly the commit link
`[abcdef1](https://github.com/ns/proj/commit/abcdef1234567890)` and the
file link `[docs/index.md](https://github.com/ns/proj/blob/main/docs/index.md)`. -/
theorem c7_github_links :
    get_remote_repo_urls (pstr "https://github.com/ns/proj") (pstr "github")
      (pstr "main") (pstr "abcdef1234567890") (pstr "abcdef1")
      (pstr "docs/index.md") =
      some ⟨pstr "[abcdef1](https://github.com/ns/proj/commit/abcdef1234567890)",
        pstr "[docs/index.md](https://github.com/ns/proj/blob/main/docs/index.md)"⟩ := by
  decide

/-- Raw git-log record whose abbreviated and full commit-id fields contain
a `<`: delivered by the backend as-is, it lets one observe whether the ids
pass through the sanitizer. -/
def rawC8 : List Char :=
  pstr "2024-01-01T10:00:00+00:00\x00a<b\x00full<\x00Ann\x00msg"

/-- Environment delivering `rawC8` for its single tracked file. -/
def envC8 : GitEnv where
  repoOpen := .ok (pstr "main")
  lsFiles := fun _ => pstr "f.md"
  gitLog := fun _ => .ok rawC8
  parseIso := fun s =>
    if s = pstr "2024-01-01T10:00:00+00:00" then some 7 else none

/-- The entry that `get_recent_changes` actually produces from `rawC8`:
both commit ids arrive HTML-escaped. -/
def entC8 : Loginfo where
  filepath := pstr "f.md"
  timestamp := 7
  author := pstr "Ann"
  message := pstr "msg"
  hash_short := pstr "a&lt;b"
  hash_full := pstr "full&lt;"
  repo_url := []
  latest_changes_page_path := pstr "p.md"
  repo_vendor := []
  branch := pstr "main"

/-- C8 counterexample: the abbreviated and full commit-id fields do *not*
reach the `Loginfo` as delivered by the backend — `git_adapter.py:130-132`
sanitizes every field of the split record, so the ids `a<b` and `full<`
are stored as `a&lt;b` and `full&lt;`. -/
theorem c8_counterexample :
    get_recent_changes envC8 [] [] (-1) (pstr ".") (pstr "p.md") =
      .ok ([entC8], []) ∧
    entC8.hash_short ≠ pstr "a<b" ∧ entC8.hash_full ≠ pstr "full<" := by
  refine ⟨by rfl, by decide, by decide⟩

/-- C8 (amended): for every per-file log record that is successfully
parsed, *all five* fields pass through the sanitizer — the author name and
subject line as the claim states, but equally the abbreviated and full
commit ids, and the timestamp field, which is sanitized before the
`Z`-normalisation and the ISO parse. -/
theorem c8_all_fields_sanitized (env : GitEnv)
    (repo_url repo_vendor page branch file raw t h1 h2 a s : List Char)
    (ts : Timestamp)
    (hlog : env.gitLog file = .ok raw)
    (hsplit : splitOnChar '\x00' raw = [t, h1, h2, a, s])
    (hts : env.parseIso (zFix (sanitize_string t)) = some ts) :
    processFile env repo_url repo_vendor page branch file =
      .ok (some
        { filepath := file
          timestamp := ts
          author := sanitize_string a
          message := sanitize_string s
          hash_short := sanitize_string h1
          hash_full := sanitize_string h2
          repo_url := repo_url
          latest_changes_page_path := page
          repo_vendor := repo_vendor
          branch := branch }) := by
  unfold processFile
  rw [hlog]
  dsimp only
  rw [hsplit]
  dsimp only [List.map, List.headD]
  rw [hts]
  dsimp only
  rw [if_pos (by simp)]
  simp [List.getD]

/-- Witness for C8 (amended): the hypotheses hold for `envC8` and its
record, and the parsed entry carries the sanitized fields. -/
theorem c8_witness :
    envC8.gitLog (pstr "f.md") = .ok rawC8 ∧
    splitOnChar '\x00' rawC8 =
      [pstr "2024-01-01T10:00:00+00:00", pstr "a<b", pstr "full<",
        pstr "Ann", pstr "msg"] ∧
    envC8.parseIso (zFix (sanitize_string (pstr "2024-01-01T10:00:00+00:00"))) =
      some 7 ∧
    processFile envC8 [] [] (pstr "p.md") (pstr "main") (pstr "f.md") =
      .ok (some
        { filepath := pstr "f.md"
          timestamp := 7
          author := sanitize_string (pstr "Ann")
          message := sanitize_string (pstr "msg")
          hash_short := sanitize_string (pstr "a<b")
          hash_full := sanitize_string (pstr "full<")
          repo_url := []
          latest_changes_page_path := pstr "p.md"
          repo_vendor := []
          branch := pstr "main" }) := by
  refine ⟨rfl, by decide, by rfl, ?_⟩
  exact c8_all_fields_sanitized envC8 [] [] (pstr "p.md") (pstr "main")
    (pstr "f.md") rawC8 (pstr "2024-01-01T10:00:00+00:00") (pstr "a<b")
    (pstr "full<") (pstr "Ann") (pstr "msg") 7 rfl (by decide) (by rfl)

/-- Python `sep.join(parts)`. -/
def joinSep (sep : List Char) : List (List Char) → List Char
  | [] => []
  | [x] => x
  | x :: xs => x ++ sep ++ joinSep sep xs

/-- The legacy `render_table` from `plugin.py:130-163`: takes the entries
as ordered dicts (modelled as ordered key/value pair lists); the first
entry contributes a header row from its keys and a dashes separator row,
every entry contributes its values as a data row, and the rows are joined
with ` | ` separators and newlines.  An empty input produces no rows, so
the joined result is the empty string. -/
def plugin_render_table (loginfos : List (List (List Char × List Char))) :
    List Char :=
  let rows : List (List (List Char)) :=
    match loginfos with
    | [] => []
    | first :: rest =>
      let column_header_row := first.map Prod.fst
      let separator_row :=
        column_header_row.map fun h => List.replicate h.length '-'
      let data_row := first.map Prod.snd
      [column_header_row, separator_row, data_row]
        ++ rest.map fun d => d.map Prod.snd
  let markdown_rows := rows.map fun row =>
    pstr " | " ++ joinSep (pstr " | ") row ++ pstr " | "
  joinSep (pstr "\n") markdown_rows

/-- The feature-to-header mapping of `presentation.py:35-43`; the header of
`page_path_link` depends on `limit_to_docs_dir`.  Unknown identifiers are
validated away upstream. -/
def column_headers (limit_to_docs_dir : Bool) (feature : List Char) : List Char :=
  if feature = pstr "filepath" then pstr "File"
  else if feature = pstr "timestamp" then pstr "Date"
  else if feature = pstr "commit_hash_link" then pstr "Commit"
  else if feature = pstr "author" then pstr "Author"
  else if feature = pstr "message" then pstr "Description"
  else if feature = pstr "file_link_git_repo" then pstr "File (Git)"
  else if feature = pstr "page_path_link" then
    (if limit_to_docs_dir then pstr "Page" else pstr "Page/File")
  else []

/-- Modelled from the spec: the per-entry cell value for one requested
column.  The Jinja template `recent_changes_table.md.j2` used by
`presentation.py:52` is not present under the sources; per spec section 4.4
a cell is the plain or linked filepath, the formatted timestamp, the
escaped author, the sanitized message, the commit-hash cell (short id,
linked when a remote URL exists) or the local page link.  The strftime
timestamp rendering and the local-link computation are not needed by any
claim and are modelled as the decimal timestamp and the plain filepath. -/
def tableCell (e : Loginfo) (feature : List Char) : List Char :=
  if feature = pstr "filepath" then e.filepath
  else if feature = pstr "timestamp" then (toString e.timestamp).data
  else if feature = pstr "commit_hash_link" then
    (if e.get_hash_url ≠ [] then
      pstr "[" ++ e.hash_short ++ pstr "](" ++ e.get_hash_url ++ pstr ")"
    else e.hash_short)
  else if feature = pstr "author" then e.author
  else if feature = pstr "message" then e.message
  else if feature = pstr "file_link_git_repo" then
    (if e.get_file_remote_url ≠ [] then
      pstr "[" ++ e.filepath ++ pstr "](" ++ e.get_file_remote_url ++ pstr ")"
    else e.filepath)
  else if feature = pstr "page_path_link" then e.filepath
  else []

/-- Modelled from the spec: the markdown table produced by the missing
Jinja template — a header row from the feature headers, a dashes separator
row matching the header cell widths, and one data row per entry, in the
given order. -/
def jinjaTableRender (loginfos : List Loginfo) (table_features : List (List Char))
    (limit_to_docs_dir : Bool) : List Char :=
  let headers := table_features.map (column_headers limit_to_docs_dir)
  let header_row := pstr "| " ++ joinSep (pstr " | ") headers ++ pstr " |"
  let separator_row := pstr "| "
    ++ joinSep (pstr " | ") (headers.map fun h => List.replicate h.length '-')
    ++ pstr " |"
  let data_rows := loginfos.map fun e =>
    pstr "| " ++ joinSep (pstr " | ") (table_features.map (tableCell e)) ++ pstr " |"
  joinSep (pstr "\n") (header_row :: separator_row :: data_rows)

/-- `render_table` from `presentation.py:17-55`: an empty entry list
returns the fixed message `No recent changes found.`; otherwise the
(spec-modelled) template renders the table. -/
def presentation_render_table (loginfos : List Loginfo)
    (table_features : List (List Char)) (limit_to_docs_dir : Bool) : List Char :=
  if loginfos = [] then pstr "No recent changes found."
  else jinjaTableRender loginfos table_features limit_to_docs_dir

/-- C9 counterexample: the repository's *other* `render_table`, the legacy
one in `plugin.py:130-163` (still the one wired to the plugin class in that
file), returns the empty string for an empty entry list — not the fixed
"no recent changes" message the claim requires of every `render_table`
call. -/
theorem c9_counterexample :
    plugin_render_table [] = [] ∧
    plugin_render_table [] ≠ pstr "No recent changes found." := by
  refine ⟨rfl, by decide⟩

/-- C9 (amended): for every call of the table renderer
`presentation.render_table` with an empty entry list, the result is the
fixed literal `No recent changes found.` — a "no recent changes" message —
and never a table fragment: it contains no `|` (no header or separator
row) and is not the empty string.  (The legacy `render_table` in
`plugin.py` instead returns the empty string on an empty list.) -/
theorem c9_empty_renders_message (table_features : List (List Char))
    (limit_to_docs_dir : Bool) :
    presentation_render_table [] table_features limit_to_docs_dir =
      pstr "No recent changes found." ∧
    presentation_render_table [] table_features limit_to_docs_dir ≠ [] ∧
    '|' ∉ presentation_render_table [] table_features limit_to_docs_dir ∧
    pyLower (pstr "no recent changes") <:+:
      pyLower (presentation_render_table [] table_features limit_to_docs_dir) := by
  have h : presentation_render_table [] table_features limit_to_docs_dir =
      pstr "No recent changes found." := rfl
  refine ⟨h, ?_, ?_, ?_⟩
  · rw [h]; decide
  · rw [h]; decide
  · rw [h]; decide

/-- A filesystem path after `Path(...).resolve()` (`helpers.py:33-34`):
an absolute, normalized path, represented by its list of components (no
empty, `.` or `..` components remain after resolution). -/
abbrev ResolvedPath := List (List Char)

/-- `Path.parent` of a resolved path: all components but the last. -/
def parentComponents (p : ResolvedPath) : ResolvedPath := p.dropLast

/-- `Path.name` of a resolved path: its final component (empty for the
filesystem root, as in pathlib). -/
def pathName (p : ResolvedPath) : List Char := p.getLast?.getD []

/-- `Path.relative_to(base)` (as called at `helpers.py:49`): defined only
when `base`'s components are a prefix of the path's components — pathlib
raises `ValueError` otherwise (no `..` walking) — and yields the remaining
components. -/
def relative_to (p base : ResolvedPath) : Option ResolvedPath :=
  if base.isPrefixOf p then some (p.drop base.length) else none

/-- `PurePath.as_posix()` of a relative path: components joined by `/`
(pathlib prints the empty relative path as `.`). -/
def asPosix (p : ResolvedPath) : List Char :=
  if p = [] then pstr "." else joinSep (pstr "/") p

/-- `get_rel_path` from `helpers.py:31-53`, over the resolved component
lists of the two argument paths: if the parents coincide, the destination's
bare filename; otherwise `dest.relative_to(src_dir)` rendered POSIX-style,
with the `ValueError` from `relative_to` caught and turned into the empty
string. -/
def get_rel_path (src_path dest_path : ResolvedPath) : List Char :=
  let dest_path_dir := parentComponents dest_path
  let src_path_dir := parentComponents src_path
  let is_same_dir := dest_path_dir = src_path_dir
  if is_same_dir then pathName dest_path
  else
    match relative_to dest_path src_path_dir with
    | some rel => asPosix rel
    | none => []

/-- C10: `get_rel_path` never raises (it is total, the `ValueError` being
caught), returns the destination's bare filename when both resolved paths
share a parent directory, returns the POSIX-style relative path from the
source's directory to the destination when the destination lies below that
directory (and that relative path is correct: re-appending it to the
source's directory gives back the destination), and returns the empty
string otherwise — pathlib's `relative_to` computes no upward (`..`)
steps, so "no sensible relative path" means the destination is not inside
the source's directory. -/
theorem c10_rel_path_cases (src_path dest_path : ResolvedPath) :
    (parentComponents dest_path = parentComponents src_path →
      get_rel_path src_path dest_path = pathName dest_path) ∧
    (parentComponents dest_path ≠ parentComponents src_path →
      (parentComponents src_path).isPrefixOf dest_path = true →
      ∃ rel, relative_to dest_path (parentComponents src_path) = some rel ∧
        parentComponents src_path ++ rel = dest_path ∧
        get_rel_path src_path dest_path = asPosix rel) ∧
    (parentComponents dest_path ≠ parentComponents src_path →
      ¬(parentComponents src_path).isPrefixOf dest_path = true →
      get_rel_path src_path dest_path = []) := by
  refine ⟨?_, ?_, ?_⟩
  · intro hsame
    unfold get_rel_path
    rw [if_pos hsame]
  · intro hne hpre
    refine ⟨dest_path.drop (parentComponents src_path).length, ?_, ?_, ?_⟩
    · unfold relative_to
      rw [if_pos hpre]
    · have hp : parentComponents src_path <+: dest_path :=
        List.isPrefixOf_iff_prefix.mp hpre
      obtain ⟨t, ht⟩ := hp
      conv_rhs => rw [← ht]
      rw [← ht, List.drop_left]
    · unfold get_rel_path
      rw [if_neg hne]
      unfold relative_to
      rw [if_pos hpre]
  · intro hne hnpre
    unfold get_rel_path
    rw [if_neg hne]
    unfold relative_to
    rw [if_neg hnpre]

/-- Witness for C10, covering all three branches on concrete paths:
same directory (`/site/docs/page.md` to `/site/docs/other.md`), destination
strictly below the source's directory (`/site/docs/page.md` to
`/site/docs/sub/deep.md`), and destination outside the source's directory
(`/site/docs/page.md` to `/site/readme.md`). -/
theorem c10_witness :
    (parentComponents [pstr "site", pstr "docs", pstr "other.md"] =
        parentComponents [pstr "site", pstr "docs", pstr "page.md"] ∧
      get_rel_path [pstr "site", pstr "docs", pstr "page.md"]
        [pstr "site", pstr "docs", pstr "other.md"] = pstr "other.md") ∧
    get_rel_path [pstr "site", pstr "docs", pstr "page.md"]
      [pstr "site", pstr "docs", pstr "sub", pstr "deep.md"] = pstr "sub/deep.md" ∧
    get_rel_path [pstr "site", pstr "docs", pstr "page.md"]
      [pstr "site", pstr "readme.md"] = [] := by
  refine ⟨⟨by decide, ?_⟩, ?_, ?_⟩
  · exact (c10_rel_path_cases [pstr "site", pstr "docs", pstr "page.md"]
      [pstr "site", pstr "docs", pstr "other.md"]).1 (by decide)
  · obtain ⟨rel, hrel, happ, hres⟩ :=
      ((c10_rel_path_cases [pstr "site", pstr "docs", pstr "page.md"]
        [pstr "site", pstr "docs", pstr "sub", pstr "deep.md"]).2.1
        (by decide) (by decide))
    have : rel = [pstr "sub", pstr "deep.md"] := by
      have h2 := hrel
      rw [show relative_to [pstr "site", pstr "docs", pstr "sub", pstr "deep.md"]
        (parentComponents [pstr "site", pstr "docs", pstr "page.md"]) =
        some [pstr "sub", pstr "deep.md"] from by decide] at h2
      exact (Option.some.injEq _ _).mp h2.symm
    rw [this] at hres
    exact hres
  · exact (c10_rel_path_cases [pstr "site", pstr "docs", pstr "page.md"]
      [pstr "site", pstr "readme.md"]).2.2 (by decide) (by decide)
